import Mathlib

/-!
Verification of the UCLA gym activity tracker core: operating-hours gating,
zone filtering and percentage computation, hourly aggregation with upsert
semantics, the pending-average sweep, and the scheduler tick arithmetic.
Definitions are shallow embeddings of the Python sources
(collector.py, collect_once.py, aggregator.py, database.py, config.py).
-/

namespace GymTracker

/-- A wall-clock instant at second precision.  `day` counts days from a
Monday epoch, so `day % 7` matches the Python `datetime.weekday()` value
(0 = Monday … 6 = Sunday). -/
structure DateTime where
  day : Nat
  hour : Nat
  minute : Nat
  second : Nat
  deriving DecidableEq, Repr

/-- One operating window: (open_hour, open_minute, close_hour, close_minute),
close_hour may exceed 23 to express wrap past midnight (config.py). -/
structure Schedule where
  openHour : Nat
  openMin : Nat
  closeHour : Nat
  closeMin : Nat
  deriving DecidableEq, Repr

/-- Per-facility weekday and Friday windows (config.py OPERATING_HOURS). -/
structure FacilityHours where
  weekday : Schedule
  friday : Schedule
  deriving DecidableEq, Repr

def JOHN_WOODEN_ID : Int := 802
def BFIT_ID : Int := 803

/-- config.py OPERATING_HOURS as a partial map from facility id. -/
def operatingHours (facilityId : Int) : Option FacilityHours :=
  if facilityId = JOHN_WOODEN_ID then
    some ⟨⟨5, 15, 25, 0⟩, ⟨5, 15, 22, 0⟩⟩
  else if facilityId = BFIT_ID then
    some ⟨⟨6, 0, 24, 0⟩, ⟨6, 0, 21, 0⟩⟩
  else none

/-- config.py TRACKED_ZONES: LocationId → display name. -/
def trackedZones : List (Int × String) :=
  [(3903, "Free Weight Zone"),
   (4339, "Advanced Circuit Zone"),
   (3902, "Novice Circuit Zone"),
   (4009, "Free Weight & Squat Zones"),
   (4010, "Cable, Synergy Zones"),
   (4011, "Selectorized Zone")]

/-- config.py FACILITY_NAMES. -/
def facilityNames (facilityId : Int) : Option String :=
  if facilityId = JOHN_WOODEN_ID then some "JWC"
  else if facilityId = BFIT_ID then some "BFIT"
  else none

/-- collector.py `is_gym_open` (identical logic in collect_once.py):
closed on weekends; Friday schedule on day 4, weekday schedule otherwise;
overnight wrap handled by the two sub-cases when close_hour ≥ 24;
otherwise the half-open interval `open ≤ t < close` in minutes. -/
def isGymOpen (facilityId : Int) (checkTime : DateTime) : Bool :=
  let dayOfWeek := checkTime.day % 7
  if dayOfWeek ≥ 5 then false
  else
    match operatingHours facilityId with
    | none => false
    | some hours =>
      let schedule := if dayOfWeek = 4 then hours.friday else hours.weekday
      let currentMinutes := checkTime.hour * 60 + checkTime.minute
      let openMinutes := schedule.openHour * 60 + schedule.openMin
      let closeMinutes := schedule.closeHour * 60 + schedule.closeMin
      if schedule.closeHour ≥ 24 then
        if currentMinutes ≥ openMinutes then true
        else
          if currentMinutes < (schedule.closeHour - 24) * 60 + schedule.closeMin then true
          else false
      else
        decide (openMinutes ≤ currentMinutes ∧ currentMinutes < closeMinutes)

/-- Half-even (banker) rounding to an integer, the ideal-decimal semantics
of the Python built-in round. -/
def roundHalfEven (q : ℚ) : ℤ :=
  let f := ⌊q⌋
  let frac := q - (f : ℚ)
  if frac < 1/2 then f
  else if 1/2 < frac then f + 1
  else if f % 2 = 0 then f else f + 1

/-- Python round(x, 1): round to one decimal place. -/
def round1 (q : ℚ) : ℚ := (roundHalfEven (q * 10) : ℚ) / 10

/-- collector.py line 131: `(count / capacity * 100) if capacity > 0 else 0`. -/
def percentage (count capacity : Int) : ℚ :=
  if 0 < capacity then (count : ℚ) / (capacity : ℚ) * 100 else 0

/-- Division as a fallible operation: none exactly when the divisor is 0. -/
def checkedDiv (a b : ℚ) : Option ℚ :=
  if b = 0 then none else some (a / b)

/-- `percentage` with its division made explicit as `checkedDiv`, to show the
division-by-zero branch is unreachable behind the `capacity > 0` guard. -/
def percentageChecked (count capacity : Int) : Option ℚ :=
  if 0 < capacity then (checkedDiv (count : ℚ) (capacity : ℚ)).map (fun q => q * 100)
  else some 0

/-- One raw record from the gym-board API; every field may be absent
(Python dict .get). -/
structure ZoneRecord where
  locationId : Option Int
  facilityId : Option Int
  locationName : Option String
  facilityName : Option String
  lastCount : Option Int
  totalCapacity : Option Int
  deriving DecidableEq, Repr

/-- One stored row of the readings table (database.py insert_reading). -/
structure Reading where
  timestamp : DateTime
  locationId : Int
  locationName : String
  facilityId : Option Int
  facilityName : String
  count : Int
  capacity : Int
  percentage : ℚ
  deriving DecidableEq, Repr

/-- `is_gym_open` applied to a possibly-absent FacilityId: an absent id has
no entry in OPERATING_HOURS, hence closed. -/
def isGymOpenOpt (facilityId : Option Int) (t : DateTime) : Bool :=
  match facilityId with
  | none => false
  | some fid => isGymOpen fid t

/-- collector.py collect_data, body of the per-zone loop: skip untracked
zones, skip closed facilities, defaults LastCount 0 and TotalCapacity 1,
percentage per the guarded formula, stored rounded to one decimal. -/
def processZone (now : DateTime) (zone : ZoneRecord) : Option Reading :=
  match zone.locationId with
  | none => none
  | some lid =>
    if (trackedZones.lookup lid).isNone then none
    else if isGymOpenOpt zone.facilityId now then
      let count := zone.lastCount.getD 0
      let capacity := zone.totalCapacity.getD 1
      some {
        timestamp := now
        locationId := lid
        locationName := zone.locationName.getD "Unknown"
        facilityId := zone.facilityId
        facilityName :=
          match zone.facilityId with
          | none => zone.facilityName.getD "Unknown"
          | some fid => (facilityNames fid).getD (zone.facilityName.getD "Unknown")
        count := count
        capacity := capacity
        percentage := round1 (percentage count capacity) }
    else none

/-- collector.py fetch_gym_data: any request exception is caught and
surfaced as the single value None. -/
def fetchGymData (response : Except String (List ZoneRecord)) : Option (List ZoneRecord) :=
  match response with
  | Except.ok data => some data
  | Except.error _ => none

/-- collector.py collect_data: when no data arrived, return with the store
untouched; otherwise process each record in order and append the accepted
readings. -/
def collectData (fetchResult : Option (List ZoneRecord)) (now : DateTime)
    (store : List Reading) : List Reading :=
  match fetchResult with
  | none => store
  | some data =>
    if data.isEmpty then store
    else store ++ data.filterMap (processZone now)

/-- One stored row of the hourly_averages table (database.py). -/
structure HARow where
  date : Nat
  hour : Nat
  dayOfWeek : Nat
  locationId : Int
  locationName : String
  facilityName : String
  avgPercentage : ℚ
  sampleCount : Nat
  deriving DecidableEq, Repr

/-- The UNIQUE(date, hour, location_id) key of hourly_averages. -/
def sameKey (a b : HARow) : Bool :=
  a.date = b.date && a.hour = b.hour && a.locationId = b.locationId

/-- database.py insert_hourly_average: INSERT OR REPLACE under
UNIQUE(date, hour, location_id) deletes the conflicting row and appends the
new one. -/
def upsertHA (row : HARow) (store : List HARow) : List HARow :=
  store.filter (fun r => !(sameKey r row)) ++ [row]

/-- The hourly_averages table after a sequence of upserts on a freshly
initialized (empty) table. -/
def applyUpserts (ops : List HARow) : List HARow :=
  ops.foldl (fun store row => upsertHA row store) []

/-- The (date, hour, location_id) key predicate on hourly_averages rows. -/
def keyMatch (d h : Nat) (lid : Int) (r : HARow) : Bool :=
  r.date = d && r.hour = h && r.locationId = lid

/-- The rows of a store holding a given (date, hour, location_id) key. -/
def rowsWithKey (d h : Nat) (lid : Int) (store : List HARow) : List HARow :=
  store.filter (keyMatch d h lid)

/-- The SQL bucket query inside calculate_hourly_average: readings whose
date, hour and location_id match. -/
def bucketRows (store : List Reading) (targetDate hour : Nat) (locationId : Int) : List Reading :=
  store.filter (fun r =>
    r.timestamp.day = targetDate && r.timestamp.hour = hour && r.locationId = locationId)

/-- aggregator.py calculate_hourly_average, one zone: skip when the bucket
is empty, else the arithmetic mean of the percentages rounded to one
decimal, with sample_count the number of readings. -/
def aggregateZone (store : List Reading) (targetDate hour : Nat)
    (locationId : Int) (locationName : String) : Option HARow :=
  match bucketRows store targetDate hour locationId with
  | [] => none
  | r0 :: rest =>
    let percentages := (r0 :: rest).map (fun r => r.percentage)
    let avgPercentage := percentages.sum / (percentages.length : ℚ)
    some { date := targetDate
           hour := hour
           dayOfWeek := targetDate % 7
           locationId := locationId
           locationName := locationName
           facilityName :=
             match r0.facilityId with
             | none => r0.facilityName
             | some fid => (facilityNames fid).getD r0.facilityName
           avgPercentage := round1 avgPercentage
           sampleCount := percentages.length }

/-- aggregator.py calculate_hourly_average: the upserts performed, one per
tracked zone with a nonempty bucket, in TRACKED_ZONES order. -/
def calculateHourlyAverage (store : List Reading) (targetDate hour : Nat) : List HARow :=
  trackedZones.filterMap (fun z => aggregateZone store targetDate hour z.1 z.2)

/-- ORDER BY date, hour: dates ascending, hours ascending within a date. -/
def dhLE (a b : Nat × Nat) : Prop := a.1 < b.1 ∨ (a.1 = b.1 ∧ a.2 ≤ b.2)

instance : DecidableRel dhLE := fun a b => by unfold dhLE; exact inferInstance

instance : IsTotal (Nat × Nat) dhLE := ⟨fun a b => by unfold dhLE; omega⟩

instance : IsTrans (Nat × Nat) dhLE := ⟨fun a b c _ _ => by unfold dhLE at *; omega⟩

/-- The SELECT DISTINCT date-hour query with ORDER BY date, hour in
calculate_all_pending_averages. -/
def distinctDateHours (store : List Reading) : List (Nat × Nat) :=
  List.insertionSort dhLE ((store.map (fun r => (r.timestamp.day, r.timestamp.hour))).dedup)

/-- aggregator.py calculate_all_pending_averages: iterate the distinct
(date, hour) pairs in ascending order, skip the pair matching the current
wall-clock instant, run calculate_hourly_average on each remaining pair;
the result is the list of upserts performed. -/
def calculateAllPendingAverages (store : List Reading) (now : DateTime) : List HARow :=
  ((distinctDateHours store).map (fun p =>
    if p.1 = now.day ∧ p.2 = now.hour then []
    else calculateHourlyAverage store p.1 p.2)).flatten

/-- now - timedelta(hours=1), on the fields the scheduler consumes. -/
def subOneHour (t : DateTime) : DateTime :=
  if 1 ≤ t.hour then { t with hour := t.hour - 1 }
  else { t with day := t.day - 1, hour := 23 }

/-- collector.py run_collector, top of the loop: when last_hour is set and
differs from the current hour, run calculate_hourly_average on the date of
(now - 1 hour) and the recorded last_hour; last_hour then becomes the
current hour.  Returns the upserts performed and the new last_hour. -/
def schedulerHourRollover (lastHour : Option Nat) (now : DateTime)
    (store : List Reading) : List HARow × Nat :=
  match lastHour with
  | none => ([], now.hour)
  | some lh =>
    if now.hour ≠ lh then
      (calculateHourlyAverage store (subOneHour now).day lh, now.hour)
    else ([], now.hour)

/-- config.py COLLECTION_INTERVAL. -/
def COLLECTION_INTERVAL : Nat := 15

/-- collector.py run_collector lines 186-192: the computed number of
seconds to sleep before the next collection. -/
def secondsUntilNext (minute second : Nat) : Int :=
  let m := COLLECTION_INTERVAL - minute % COLLECTION_INTERVAL
  let m := if m = COLLECTION_INTERVAL then 0 else m
  let s : Int := (m : Int) * 60 - (second : Int)
  if s ≤ 0 then (COLLECTION_INTERVAL : Int) * 60 else s

/-- The wait formula as the claim words it: interval minus
(minute mod interval) minutes, minus the elapsed seconds, with fallback to
a full interval exactly when that computation is zero or negative. -/
def claimWaitSeconds (minute second : Nat) : Int :=
  let c : Int := ((COLLECTION_INTERVAL : Int) - ((minute % COLLECTION_INTERVAL : Nat) : Int)) * 60
    - (second : Int)
  if c ≤ 0 then (COLLECTION_INTERVAL : Int) * 60 else c

/-- A Monday mid-morning instant used for concrete checks. -/
def mondayMidMorning : DateTime := ⟨0, 10, 0, 0⟩

/-- A tracked, open-hours record whose TotalCapacity field is absent. -/
def missingCapacityRecord : ZoneRecord :=
  ⟨some 3903, some 802, some "Free Weight Zone", none, some 5, none⟩

/-- A tracked, open-hours record carrying a negative LastCount. -/
def negativeCountRecord : ZoneRecord :=
  ⟨some 3903, some 802, some "Free Weight Zone", none, some (-5), some 10⟩

/-- A reading of the Free Weight Zone on Monday (day 0) during hour 9. -/
def sampleReadingAt (minute : Nat) (pct : ℚ) : Reading :=
  { timestamp := ⟨0, 9, minute, 0⟩
    locationId := 3903
    locationName := "Free Weight Zone"
    facilityId := some 802
    facilityName := "JWC"
    count := 10
    capacity := 50
    percentage := pct }

/-- Three readings of one bucket with percentages 20, 30 and 40. -/
def threeSampleStore : List Reading :=
  [sampleReadingAt 0 20, sampleReadingAt 15 30, sampleReadingAt 30 40]

/-- Claim C1: on Monday–Thursday (the overnight-wrap schedule of John Wooden,
open 5:15, close 25:00), `isGymOpen` is true at 05:15, 23:59 and 00:30, and
false at exactly 01:00:00 and at 05:00; the whole schedule reduces to the
disjunction `currentMinutes ≥ 315 ∨ currentMinutes < 60`. -/
theorem is_gym_open_overnight_wrap (d s : Nat) (hd : d % 7 < 4) :
    isGymOpen JOHN_WOODEN_ID ⟨d, 5, 15, s⟩ = true ∧
    isGymOpen JOHN_WOODEN_ID ⟨d, 23, 59, s⟩ = true ∧
    isGymOpen JOHN_WOODEN_ID ⟨d, 0, 30, s⟩ = true ∧
    isGymOpen JOHN_WOODEN_ID ⟨d, 1, 0, 0⟩ = false ∧
    isGymOpen JOHN_WOODEN_ID ⟨d, 5, 0, s⟩ = false ∧
    (∀ t : DateTime, t.day = d →
      isGymOpen JOHN_WOODEN_ID t =
        (decide (t.hour * 60 + t.minute ≥ 315) || decide (t.hour * 60 + t.minute < 60))) := by
  have h5 : ¬ d % 7 ≥ 5 := by omega
  have h4 : ¬ d % 7 = 4 := by omega
  have hmain : ∀ t : DateTime, t.day = d →
      isGymOpen JOHN_WOODEN_ID t =
        (decide (t.hour * 60 + t.minute ≥ 315) || decide (t.hour * 60 + t.minute < 60)) := by
    intro t ht
    simp only [isGymOpen, operatingHours, JOHN_WOODEN_ID, BFIT_ID, ht]
    simp only [if_neg h5, if_neg h4, reduceIte]
    by_cases hc : t.hour * 60 + t.minute ≥ 315
    · simp [hc]
    · by_cases hc2 : t.hour * 60 + t.minute < 60
      · simp [hc, hc2]
      · simp [hc, hc2]
  refine ⟨hmain ⟨d, 5, 15, s⟩ rfl ▸ ?_, hmain ⟨d, 23, 59, s⟩ rfl ▸ ?_,
    hmain ⟨d, 0, 30, s⟩ rfl ▸ ?_, hmain ⟨d, 1, 0, 0⟩ rfl ▸ ?_,
    hmain ⟨d, 5, 0, s⟩ rfl ▸ ?_, hmain⟩ <;> rfl

/-- Witness for C1 at Monday (day 0), second 0. -/
theorem is_gym_open_overnight_wrap_witness :
    isGymOpen JOHN_WOODEN_ID ⟨0, 23, 59, 0⟩ = true :=
  (is_gym_open_overnight_wrap 0 0 (by decide)).2.1

/-- Claim C10: `isGymOpen` ignores the seconds component: two instants in the
same calendar minute (same day, hour and minute) get the same result. -/
theorem is_gym_open_ignores_seconds (facilityId : Int) (t₁ t₂ : DateTime)
    (hday : t₁.day = t₂.day) (hhour : t₁.hour = t₂.hour)
    (hmin : t₁.minute = t₂.minute) :
    isGymOpen facilityId t₁ = isGymOpen facilityId t₂ := by
  cases t₁
  cases t₂
  simp only at hday hhour hmin
  subst hday hhour hmin
  rfl

/-- Witness for C10: 00:59:59 and 00:59:00 on a Monday under the wrap
schedule are treated identically. -/
theorem is_gym_open_ignores_seconds_witness :
    isGymOpen JOHN_WOODEN_ID ⟨0, 0, 59, 59⟩ = isGymOpen JOHN_WOODEN_ID ⟨0, 0, 59, 0⟩ :=
  is_gym_open_ignores_seconds JOHN_WOODEN_ID ⟨0, 0, 59, 59⟩ ⟨0, 0, 59, 0⟩ rfl rfl rfl

/-- Claim C8: the division in the percentage computation is guarded by
`capacity > 0`, so the division-by-zero branch is unreachable: the checked
variant never yields none, it agrees with `percentage`, and any capacity
≤ 0 yields percentage 0. -/
theorem percentage_guarded_division (count capacity : Int) :
    percentageChecked count capacity = some (percentage count capacity) ∧
    percentageChecked count capacity ≠ none ∧
    (capacity ≤ 0 → percentage count capacity = 0) := by
  by_cases h : 0 < capacity
  · have hne : (capacity : ℚ) ≠ 0 := Int.cast_ne_zero.mpr (by omega)
    exact ⟨by simp [percentageChecked, checkedDiv, percentage, h, hne],
      by simp [percentageChecked, checkedDiv, h, hne],
      fun hc => absurd h (by omega)⟩
  · exact ⟨by simp [percentageChecked, percentage, h],
      by simp [percentageChecked, h],
      fun _ => by simp [percentage, h]⟩

/-- Witness for C8: a record with capacity 0 gets percentage 0 through the
guarded, never-failing division. -/
theorem percentage_guarded_division_witness :
    percentage 7 0 = 0 ∧ percentageChecked 7 0 = some (percentage 7 0) :=
  ⟨(percentage_guarded_division 7 0).2.2 (by decide),
   (percentage_guarded_division 7 0).1⟩

/-- Claim C5, counterexample: a tracked record whose capacity field is
absent stores percentage 500 (capacity defaults to 1), not 0; and a
negative raw count stores a negative percentage, so no clamping to ≥ 0
happens. -/
theorem stored_percentage_claim_counterexample :
    (processZone mondayMidMorning missingCapacityRecord).map Reading.percentage
      = some 500 ∧ (500 : ℚ) ≠ 0 ∧
    (processZone mondayMidMorning negativeCountRecord).map Reading.percentage
      = some (-50) ∧ ¬ (0 : ℚ) ≤ -50 := by
  have h1 : (processZone mondayMidMorning missingCapacityRecord).map Reading.percentage
      = some (round1 (percentage 5 1)) := rfl
  have h2 : (processZone mondayMidMorning negativeCountRecord).map Reading.percentage
      = some (round1 (percentage (-5) 10)) := rfl
  refine ⟨?_, by norm_num, ?_, by norm_num⟩
  · rw [h1]; norm_num [round1, roundHalfEven, percentage]
  · rw [h2]; norm_num [round1, roundHalfEven, percentage]

/-- Claim C5 amended: a stored reading carries count defaulted to 0 and
capacity defaulted to 1 when the raw fields are absent, and its percentage
is count/capacity×100 when capacity > 0 and 0 otherwise, rounded to one
decimal; there is no clamping, and an absent capacity yields count×100
rather than 0. -/
theorem stored_percentage_formula (now : DateTime) (zone : ZoneRecord) (r : Reading)
    (h : processZone now zone = some r) :
    r.count = zone.lastCount.getD 0 ∧
    r.capacity = zone.totalCapacity.getD 1 ∧
    r.percentage = round1 (percentage r.count r.capacity) ∧
    (zone.totalCapacity = none → r.capacity = 1) := by
  cases hl : zone.locationId with
  | none => rw [processZone, hl] at h; exact absurd h (by simp)
  | some lid =>
    rw [processZone, hl] at h
    dsimp only at h
    by_cases h1 : (trackedZones.lookup lid).isNone
    · rw [if_pos h1] at h; cases h
    · rw [if_neg h1] at h
      by_cases h2 : isGymOpenOpt zone.facilityId now
      · rw [if_pos h2] at h
        have := Option.some.inj h
        subst this
        exact ⟨rfl, rfl, rfl, fun hc => by simp [hc]⟩
      · rw [if_neg h2] at h; cases h

/-- Witness for C5 amended: the absent-capacity record stores capacity 1
and the rounded guarded percentage. -/
theorem stored_percentage_formula_witness :
    ∃ r, processZone mondayMidMorning missingCapacityRecord = some r ∧
      r.capacity = 1 ∧ r.percentage = round1 (percentage r.count r.capacity) := by
  obtain ⟨-, h2, h3, h4⟩ :=
    stored_percentage_formula mondayMidMorning missingCapacityRecord _ rfl
  exact ⟨_, rfl, h4 rfl, h3⟩

/-- Claim C9: a failed fetch is surfaced as the single value none, on which
collect_data returns with the readings store untouched (no partial reading
is stored) and the loop proceeds to the next tick. -/
theorem fetch_failure_skips_tick (e : String) (now : DateTime) (store : List Reading) :
    fetchGymData (Except.error e) = none ∧
    collectData (fetchGymData (Except.error e)) now store = store :=
  ⟨rfl, rfl⟩

/-- Claim C4, counterexample: at wall-clock 10:15:30 the code computes a
full 900-second wait, while the formula of the claim computes 870 seconds
(positive, so the fallback of the claim does not engage). -/
theorem scheduler_wait_claim_counterexample :
    secondsUntilNext 15 30 = 900 ∧ claimWaitSeconds 15 30 = 870 ∧
    secondsUntilNext 15 30 ≠ claimWaitSeconds 15 30 := by
  refine ⟨by decide, by decide, by decide⟩

/-- Claim C4 amended: when the minute is an exact multiple of the interval
the code zeroes the minutes term, so the wait falls back to a full
interval (900 s); otherwise the wait is interval − (minute mod interval)
minutes minus the elapsed seconds, which is always positive; at 10:07:00
the wait is 480 s and at exactly 10:15:00 it is the full 900 s. -/
theorem scheduler_wait_formula (minute second : Nat)
    (hs : second < 60) :
    (minute % COLLECTION_INTERVAL = 0 → secondsUntilNext minute second = 900) ∧
    (minute % COLLECTION_INTERVAL ≠ 0 →
      secondsUntilNext minute second =
        ((COLLECTION_INTERVAL : Int) - ((minute % COLLECTION_INTERVAL : Nat) : Int)) * 60
          - (second : Int)) ∧
    secondsUntilNext 7 0 = 480 ∧ secondsUntilNext 15 0 = 900 := by
  refine ⟨?_, ?_, by decide, by decide⟩
  · intro h0
    rw [secondsUntilNext, COLLECTION_INTERVAL] at *
    rw [h0]
    norm_num
  · intro h0
    rw [secondsUntilNext, COLLECTION_INTERVAL] at *
    have hlt : minute % 15 < 15 := Nat.mod_lt minute (by omega)
    have h15 : ¬ (15 - minute % 15 = 15) := by omega
    rw [if_neg h15]
    have hpos : ¬ (((15 - minute % 15 : Nat) : Int) * 60 - (second : Int) ≤ 0) := by omega
    rw [if_neg hpos]
    omega

/-- Witness for C4 amended, at 10:07:00. -/
theorem scheduler_wait_formula_witness :
    secondsUntilNext 7 0 =
      ((COLLECTION_INTERVAL : Int) - ((7 % COLLECTION_INTERVAL : Nat) : Int)) * 60
        - ((0 : Nat) : Int) :=
  (scheduler_wait_formula 7 0 (by decide)).2.1 (by decide)

/-- Claim C6: on a nonempty (date, hour, zone) bucket, aggregation yields a
row carrying the arithmetic mean of the percentages rounded to one decimal
place and the number of readings as sample_count. -/
theorem hourly_average_mean (store : List Reading) (targetDate hour : Nat)
    (locationId : Int) (locationName : String)
    (h : bucketRows store targetDate hour locationId ≠ []) :
    ∃ row, aggregateZone store targetDate hour locationId locationName = some row ∧
      row.avgPercentage = round1
        (((bucketRows store targetDate hour locationId).map (fun r => r.percentage)).sum /
          ((bucketRows store targetDate hour locationId).length : ℚ)) ∧
      row.sampleCount = (bucketRows store targetDate hour locationId).length := by
  cases hb : bucketRows store targetDate hour locationId with
  | nil => exact absurd hb h
  | cons r0 rest =>
    have hagg : aggregateZone store targetDate hour locationId locationName =
        some { date := targetDate
               hour := hour
               dayOfWeek := targetDate % 7
               locationId := locationId
               locationName := locationName
               facilityName :=
                 match r0.facilityId with
                 | none => r0.facilityName
                 | some fid => (facilityNames fid).getD r0.facilityName
               avgPercentage := round1 ((((r0 :: rest).map (fun r => r.percentage)).sum /
                 (((r0 :: rest).map (fun r => r.percentage)).length : ℚ)))
               sampleCount := ((r0 :: rest).map (fun r => r.percentage)).length } := by
      rw [aggregateZone, hb]
    exact ⟨_, hagg, by simp [hb], by simp [hb]⟩

/-- Witness for C6: readings of 20%, 30% and 40% yield mean 30.0 with
sample_count 3. -/
theorem hourly_average_mean_witness :
    ∃ row, aggregateZone threeSampleStore 0 9 3903 "Free Weight Zone" = some row ∧
      row.avgPercentage = 30 ∧ row.sampleCount = 3 := by
  obtain ⟨row, h1, h2, h3⟩ :=
    hourly_average_mean threeSampleStore 0 9 3903 "Free Weight Zone" (by decide)
  have hb : bucketRows threeSampleStore 0 9 3903 =
      [sampleReadingAt 0 20, sampleReadingAt 15 30, sampleReadingAt 30 40] := rfl
  refine ⟨row, h1, ?_, ?_⟩
  · rw [h2, hb]
    norm_num [sampleReadingAt, round1, roundHalfEven]
  · rw [h3, hb]
    rfl

/-- Helper for C2: when the upserted row has the key, the keyed rows
collapse to exactly that row; keyed rows under a different key are kept. -/
theorem sameKey_of_keyMatch {d h : Nat} {lid : Int} {row : HARow}
    (hk : keyMatch d h lid row = true) (r : HARow) :
    sameKey r row = keyMatch d h lid r := by
  simp only [keyMatch, Bool.and_eq_true, decide_eq_true_eq] at hk
  obtain ⟨⟨h1, h2⟩, h3⟩ := hk
  subst h1 h2 h3
  rfl

/-- Helper for C2: a row with the key never matches an upserted row whose
key differs. -/
theorem not_sameKey_of_keyMatch {d h : Nat} {lid : Int} {row : HARow}
    (hk : keyMatch d h lid row = false) (r : HARow)
    (hr : keyMatch d h lid r = true) : sameKey r row = false := by
  simp only [keyMatch, Bool.and_eq_true, decide_eq_true_eq,
    Bool.and_eq_false_iff, decide_eq_false_iff_not] at hk hr
  simp only [sameKey, Bool.and_eq_false_iff, decide_eq_false_iff_not]
  obtain ⟨⟨r1, r2⟩, r3⟩ := hr
  rcases hk with (hk | hk) | hk
  · left; left; omega
  · left; right; omega
  · right; omega

/-- Helper for C2: effect of one INSERT OR REPLACE on the rows of a key. -/
theorem rowsWithKey_upsert (d h : Nat) (lid : Int) (row : HARow) (s : List HARow) :
    rowsWithKey d h lid (upsertHA row s) =
      if keyMatch d h lid row then [row] else rowsWithKey d h lid s := by
  unfold rowsWithKey upsertHA
  rw [List.filter_append]
  by_cases hk : keyMatch d h lid row = true
  · rw [if_pos hk]
    have h1 : List.filter (keyMatch d h lid) (List.filter (fun r => !(sameKey r row)) s)
        = [] := by
      rw [List.filter_eq_nil_iff]
      intro a ha hka
      rw [List.mem_filter] at ha
      rw [sameKey_of_keyMatch hk a, hka] at ha
      simp at ha
    rw [h1]
    simp [hk]
  · have hk0 : keyMatch d h lid row = false := by
      cases hkv : keyMatch d h lid row
      · rfl
      · exact absurd hkv hk
    rw [if_neg hk]
    have h2 : List.filter (keyMatch d h lid) [row] = [] := by
      simp [List.filter, hk0]
    rw [h2, List.append_nil, List.filter_filter]
    refine List.filter_congr ?_
    intro x hx
    cases hxv : keyMatch d h lid x
    · simp
    · rw [not_sameKey_of_keyMatch hk0 x hxv]
      rfl

/-- Claim C2: after any sequence of hourly-average upserts on a fresh
table, the rows of each (date, hour, zone) key are exactly the last upsert
of that key (empty when the key was never upserted), hence at most one row
per key, with the last-computed value winning. -/
theorem hourly_average_upsert_unique (ops : List HARow) (d h : Nat) (lid : Int) :
    rowsWithKey d h lid (applyUpserts ops) =
      ((ops.filter (keyMatch d h lid)).getLast?).toList ∧
    (rowsWithKey d h lid (applyUpserts ops)).length ≤ 1 := by
  have main : ∀ ops : List HARow, rowsWithKey d h lid (applyUpserts ops) =
      ((ops.filter (keyMatch d h lid)).getLast?).toList := by
    intro ops
    induction ops using List.reverseRecOn with
    | nil => rfl
    | append_singleton l r ihl =>
      unfold applyUpserts at ihl ⊢
      rw [List.foldl_append, List.foldl_cons, List.foldl_nil, rowsWithKey_upsert,
        List.filter_append]
      by_cases hk : keyMatch d h lid r = true
      · rw [if_pos hk]
        have : List.filter (keyMatch d h lid) [r] = [r] := by simp [List.filter, hk]
        rw [this, List.getLast?_concat]
        rfl
      · have hk0 : keyMatch d h lid r = false := by
          cases hkv : keyMatch d h lid r
          · rfl
          · exact absurd hkv hk
        rw [if_neg hk]
        have : List.filter (keyMatch d h lid) [r] = [] := by simp [List.filter, hk0]
        rw [this, List.append_nil]
        exact ihl
  refine ⟨main ops, ?_⟩
  rw [main ops]
  cases (ops.filter (keyMatch d h lid)).getLast? <;> simp

/-- Helper shared by C7 and C3: every tracked zone with a nonempty bucket
contributes a row of that date, hour and zone to calculate_hourly_average. -/
theorem calculateHourlyAverage_covers (store : List Reading) (d h : Nat)
    (z : Int × String) (hz : z ∈ trackedZones)
    (hb : bucketRows store d h z.1 ≠ []) :
    ∃ row ∈ calculateHourlyAverage store d h,
      row.date = d ∧ row.hour = h ∧ row.locationId = z.1 := by
  cases hbr : bucketRows store d h z.1 with
  | nil => exact absurd hbr hb
  | cons r0 rest =>
    have hagg : aggregateZone store d h z.1 z.2 =
        some { date := d
               hour := h
               dayOfWeek := d % 7
               locationId := z.1
               locationName := z.2
               facilityName :=
                 match r0.facilityId with
                 | none => r0.facilityName
                 | some fid => (facilityNames fid).getD r0.facilityName
               avgPercentage := round1 ((((r0 :: rest).map (fun r => r.percentage)).sum /
                 (((r0 :: rest).map (fun r => r.percentage)).length : ℚ)))
               sampleCount := ((r0 :: rest).map (fun r => r.percentage)).length } := by
      rw [aggregateZone, hbr]
    exact ⟨_, List.mem_filterMap.mpr ⟨z, hz, hagg⟩, rfl, rfl, rfl⟩

/-- Helper shared by C7 and C3: every row produced by
calculate_hourly_average carries the requested date and hour. -/
theorem calculateHourlyAverage_date_hour {store : List Reading} {d h : Nat}
    {row : HARow} (hr : row ∈ calculateHourlyAverage store d h) :
    row.date = d ∧ row.hour = h := by
  obtain ⟨z, -, ha⟩ := List.mem_filterMap.mp hr
  rw [aggregateZone] at ha
  cases hbr : bucketRows store d h z.1 with
  | nil => rw [hbr] at ha; exact absurd ha (by simp)
  | cons r0 rest =>
    rw [hbr] at ha
    have := Option.some.inj ha
    subst this
    exact ⟨rfl, rfl⟩

/-- Claim C7: on an iteration where the recorded hour is set, differs from
the current hour, and is the hour of (now − 1h) — the hour that just
closed — the scheduler aggregates the date and hour of (now − 1h),
covering every tracked zone with readings in that bucket, and then records
the current hour. -/
theorem scheduler_hour_rollover_aggregates (lastHour : Option Nat) (now : DateTime)
    (store : List Reading) (lh : Nat)
    (hlh : lastHour = some lh) (hne : lh ≠ now.hour)
    (hprev : (subOneHour now).hour = lh) :
    (schedulerHourRollover lastHour now store).1 =
      calculateHourlyAverage store (subOneHour now).day (subOneHour now).hour ∧
    (schedulerHourRollover lastHour now store).2 = now.hour ∧
    (∀ z ∈ trackedZones,
      bucketRows store (subOneHour now).day (subOneHour now).hour z.1 ≠ [] →
      ∃ row ∈ (schedulerHourRollover lastHour now store).1,
        row.date = (subOneHour now).day ∧ row.hour = (subOneHour now).hour ∧
        row.locationId = z.1) := by
  subst hlh
  subst hprev
  have hcalls : schedulerHourRollover (some (subOneHour now).hour) now store =
      (calculateHourlyAverage store (subOneHour now).day (subOneHour now).hour,
        now.hour) := by
    rw [schedulerHourRollover, if_pos (Ne.symm hne)]
  rw [hcalls]
  exact ⟨rfl, rfl, fun z hz hb => calculateHourlyAverage_covers store _ _ z hz hb⟩

/-- Witness for C7: with recorded hour 9 at Monday 10:05, aggregation runs
for hour 9 of day 0, covers the Free Weight Zone, and hour 10 is
recorded. -/
theorem scheduler_hour_rollover_aggregates_witness :
    (schedulerHourRollover (some 9) ⟨0, 10, 5, 0⟩ threeSampleStore).2 = 10 ∧
    (∃ row ∈ (schedulerHourRollover (some 9) ⟨0, 10, 5, 0⟩ threeSampleStore).1,
      row.date = 0 ∧ row.hour = 9 ∧ row.locationId = 3903) := by
  obtain ⟨-, h2, h3⟩ := scheduler_hour_rollover_aggregates (some 9) ⟨0, 10, 5, 0⟩
    threeSampleStore 9 rfl (by decide) rfl
  exact ⟨h2, h3 (3903, "Free Weight Zone") (by decide) (by decide)⟩

/-- Claim C3: the sweep enumerates exactly the distinct (date, hour) pairs
present in the readings, ascending and without duplicates; it performs no
upsert for the pair matching the current wall-clock instant; and for every
other enumerated pair it aggregates every tracked zone (an upsert happens
for each tracked zone whose bucket is nonempty). -/
theorem pending_sweep (store : List Reading) (now : DateTime) :
    (distinctDateHours store).Sorted dhLE ∧
    (distinctDateHours store).Nodup ∧
    (∀ p : Nat × Nat, p ∈ distinctDateHours store ↔
      ∃ r ∈ store, r.timestamp.day = p.1 ∧ r.timestamp.hour = p.2) ∧
    (∀ row ∈ calculateAllPendingAverages store now,
      ¬(row.date = now.day ∧ row.hour = now.hour)) ∧
    (∀ p ∈ distinctDateHours store, ¬(p.1 = now.day ∧ p.2 = now.hour) →
      ∀ z ∈ trackedZones, bucketRows store p.1 p.2 z.1 ≠ [] →
      ∃ row ∈ calculateAllPendingAverages store now,
        row.date = p.1 ∧ row.hour = p.2 ∧ row.locationId = z.1) := by
  refine ⟨List.sorted_insertionSort dhLE _,
    ((List.perm_insertionSort dhLE _).nodup_iff).mpr (List.nodup_dedup _), ?_, ?_, ?_⟩
  · intro p
    rw [distinctDateHours, List.mem_insertionSort, List.mem_dedup, List.mem_map]
    constructor
    · rintro ⟨r, hr, hp⟩
      exact ⟨r, hr, by rw [← hp], by rw [← hp]⟩
    · rintro ⟨r, hr, h1, h2⟩
      exact ⟨r, hr, by cases p; simp_all⟩
  · intro row hrow
    rw [calculateAllPendingAverages, List.mem_flatten] at hrow
    obtain ⟨l, hl, hrl⟩ := hrow
    rw [List.mem_map] at hl
    obtain ⟨p, -, hpl⟩ := hl
    by_cases hc : p.1 = now.day ∧ p.2 = now.hour
    · rw [if_pos hc] at hpl
      rw [← hpl] at hrl
      cases hrl
    · rw [if_neg hc] at hpl
      rw [← hpl] at hrl
      obtain ⟨hd, hh⟩ := calculateHourlyAverage_date_hour hrl
      rw [hd, hh]
      exact hc
  · intro p hp hc z hz hb
    obtain ⟨row, hrow, hfields⟩ := calculateHourlyAverage_covers store p.1 p.2 z hz hb
    refine ⟨row, ?_, hfields⟩
    rw [calculateAllPendingAverages, List.mem_flatten]
    exact ⟨calculateHourlyAverage store p.1 p.2,
      List.mem_map.mpr ⟨p, hp, by rw [if_neg hc]⟩, hrow⟩

/-- Witness for C3: with one bucket at (day 0, hour 9) and the clock at
Monday 10:05, the sweep upserts a row for that bucket and the tracked
Free Weight Zone. -/
theorem pending_sweep_witness :
    ∃ row ∈ calculateAllPendingAverages threeSampleStore ⟨0, 10, 5, 0⟩,
      row.date = 0 ∧ row.hour = 9 ∧ row.locationId = 3903 :=
  (pending_sweep threeSampleStore ⟨0, 10, 5, 0⟩).2.2.2.2 (0, 9) (by decide)
    (by decide) (3903, "Free Weight Zone") (by decide) (by decide)

end GymTracker
